import Mathlib

/-!
Verification of the `done-client` TypeScript library (`src/client.ts`,
`src/types.ts`) against its specification.  The client is a thin
request/response translation layer: each operation builds exactly one HTTP
request from its inputs and normalizes the transport's response into a typed
value.  We embed the request construction and response normalization as pure
Lean functions and prove the specified properties about them.

Timestamps: the source relies on the JavaScript `Date` platform type, using
only `new Date(isoString)` (parsing) and `date.toISOString()` (formatting,
which always emits the 24-character UTC form `YYYY-MM-DDTHH:mm:ss.sssZ`).
We model a `Date` holding a representable instant as a `Timestamp` of
calendar components, an arbitrary `Date` (possibly Invalid Date) as
`JSDate := Option Timestamp`, ISO parsing for the UTC `Z` forms the service
uses (with and without a millisecond part, as in ECMA-262 date-time string
interchange format restricted to UTC), and `toISOString` as the fixed-width
formatter.
-/

/-- Calendar components of a JavaScript `Date` holding a valid instant
(UTC, as exposed by `toISOString`). -/
structure Timestamp where
  year : Nat
  month : Nat
  day : Nat
  hour : Nat
  minute : Nat
  second : Nat
  ms : Nat
deriving DecidableEq, Repr

/-- A JavaScript `Date` value: either a representable instant or the
Invalid Date (`none`). -/
abbrev JSDate := Option Timestamp

/-- Gregorian leap-year test, as in ECMA-262 day-number arithmetic. -/
def isLeap (y : Nat) : Bool :=
  (y % 4 == 0 && y % 100 != 0) || y % 400 == 0

/-- Number of days in a month (1-based), matching ECMA-262 `MakeDay`
validity for ISO date-time strings. -/
def daysInMonth (y m : Nat) : Nat :=
  if m = 2 then (if isLeap y then 29 else 28)
  else if m = 4 ∨ m = 6 ∨ m = 9 ∨ m = 11 then 30
  else 31

/-- The component ranges representable in the 24-character ISO form that
`toISOString` emits. -/
def Timestamp.valid (t : Timestamp) : Prop :=
  t.year ≤ 9999 ∧ 1 ≤ t.month ∧ t.month ≤ 12 ∧ 1 ≤ t.day ∧
    t.day ≤ daysInMonth t.year t.month ∧ t.hour ≤ 23 ∧ t.minute ≤ 59 ∧
    t.second ≤ 59 ∧ t.ms ≤ 999

instance (t : Timestamp) : Decidable t.valid := by
  unfold Timestamp.valid; infer_instance

/-- Numeric value of a decimal digit character. -/
def digitVal (c : Char) : Nat := c.toNat - 48

/-- Read a two-digit decimal field. -/
def readD2 (a b : Char) : Option Nat :=
  if a.isDigit && b.isDigit then some (10 * digitVal a + digitVal b) else none

/-- Read a three-digit decimal field. -/
def readD3 (a b c : Char) : Option Nat :=
  if a.isDigit && b.isDigit && c.isDigit then
    some (100 * digitVal a + 10 * digitVal b + digitVal c)
  else none

/-- Read a four-digit decimal field. -/
def readD4 (a b c d : Char) : Option Nat :=
  if a.isDigit && b.isDigit && c.isDigit && d.isDigit then
    some (1000 * digitVal a + 100 * digitVal b + 10 * digitVal c + digitVal d)
  else none

/-- Assemble parsed fields into a `Timestamp`, applying the range checks
ECMA-262 performs on ISO date-time strings (out of range gives Invalid
Date). -/
def mkTs (y mo d h mi s f : Option Nat) : Option Timestamp :=
  match y, mo, d, h, mi, s, f with
  | some y, some mo, some d, some h, some mi, some s, some f =>
    if 1 ≤ mo ∧ mo ≤ 12 ∧ 1 ≤ d ∧ d ≤ daysInMonth y mo ∧ h ≤ 23 ∧ mi ≤ 59 ∧
        s ≤ 59 then
      some ⟨y, mo, d, h, mi, s, f⟩
    else none
  | _, _, _, _, _, _, _ => none

/-- `new Date(s)` on the UTC ISO forms the Done service uses:
`YYYY-MM-DDTHH:mm:ss.sssZ` and `YYYY-MM-DDTHH:mm:ssZ` (the latter parses
with a zero millisecond component).  Any other string is modelled as
Invalid Date. -/
def parseISO (str : String) : Option Timestamp :=
  match str.data with
  | [y1, y2, y3, y4, '-', m1, m2, '-', d1, d2, 'T', h1, h2, ':', n1, n2, ':',
      s1, s2, '.', f1, f2, f3, 'Z'] =>
    mkTs (readD4 y1 y2 y3 y4) (readD2 m1 m2) (readD2 d1 d2) (readD2 h1 h2)
      (readD2 n1 n2) (readD2 s1 s2) (readD3 f1 f2 f3)
  | [y1, y2, y3, y4, '-', m1, m2, '-', d1, d2, 'T', h1, h2, ':', n1, n2, ':',
      s1, s2, 'Z'] =>
    mkTs (readD4 y1 y2 y3 y4) (readD2 m1 m2) (readD2 d1 d2) (readD2 h1 h2)
      (readD2 n1 n2) (readD2 s1 s2) (some 0)
  | _ => none

/-- `new Date(s)`. -/
def jsDate (s : String) : JSDate := parseISO s

/-- Two-digit zero-padded decimal rendering. -/
def pad2 (n : Nat) : List Char :=
  [Nat.digitChar (n / 10 % 10), Nat.digitChar (n % 10)]

/-- Three-digit zero-padded decimal rendering. -/
def pad3 (n : Nat) : List Char :=
  [Nat.digitChar (n / 100 % 10), Nat.digitChar (n / 10 % 10),
    Nat.digitChar (n % 10)]

/-- Four-digit zero-padded decimal rendering. -/
def pad4 (n : Nat) : List Char :=
  [Nat.digitChar (n / 1000 % 10), Nat.digitChar (n / 100 % 10),
    Nat.digitChar (n / 10 % 10), Nat.digitChar (n % 10)]

/-- `date.toISOString()`: the 24-character form
`YYYY-MM-DDTHH:mm:ss.sssZ`, always with a millisecond part. -/
def Timestamp.toISOString (t : Timestamp) : String :=
  ⟨pad4 t.year ++ '-' :: (pad2 t.month ++ '-' :: (pad2 t.day ++
    'T' :: (pad2 t.hour ++ ':' :: (pad2 t.minute ++ ':' :: (pad2 t.second ++
    '.' :: (pad3 t.ms ++ ['Z']))))))⟩

theorem digitVal_digitChar {d : Nat} (h : d < 10) :
    digitVal (Nat.digitChar d) = d := by
  interval_cases d <;> rfl

theorem isDigit_digitChar {d : Nat} (h : d < 10) :
    (Nat.digitChar d).isDigit = true := by
  interval_cases d <;> rfl

theorem readD2_pad2 {n : Nat} (h : n ≤ 99) :
    readD2 (Nat.digitChar (n / 10 % 10)) (Nat.digitChar (n % 10)) = some n := by
  unfold readD2
  rw [isDigit_digitChar (Nat.mod_lt _ (by omega)),
    isDigit_digitChar (Nat.mod_lt _ (by omega))]
  simp only [Bool.and_self, if_true]
  rw [digitVal_digitChar (Nat.mod_lt _ (by omega)),
    digitVal_digitChar (Nat.mod_lt _ (by omega))]
  congr 1
  omega

theorem readD3_pad3 {n : Nat} (h : n ≤ 999) :
    readD3 (Nat.digitChar (n / 100 % 10)) (Nat.digitChar (n / 10 % 10))
      (Nat.digitChar (n % 10)) = some n := by
  unfold readD3
  rw [isDigit_digitChar (Nat.mod_lt _ (by omega)),
    isDigit_digitChar (Nat.mod_lt _ (by omega)),
    isDigit_digitChar (Nat.mod_lt _ (by omega))]
  simp only [Bool.and_self, if_true]
  rw [digitVal_digitChar (Nat.mod_lt _ (by omega)),
    digitVal_digitChar (Nat.mod_lt _ (by omega)),
    digitVal_digitChar (Nat.mod_lt _ (by omega))]
  congr 1
  omega

theorem readD4_pad4 {n : Nat} (h : n ≤ 9999) :
    readD4 (Nat.digitChar (n / 1000 % 10)) (Nat.digitChar (n / 100 % 10))
      (Nat.digitChar (n / 10 % 10)) (Nat.digitChar (n % 10)) = some n := by
  unfold readD4
  rw [isDigit_digitChar (Nat.mod_lt _ (by omega)),
    isDigit_digitChar (Nat.mod_lt _ (by omega)),
    isDigit_digitChar (Nat.mod_lt _ (by omega)),
    isDigit_digitChar (Nat.mod_lt _ (by omega))]
  simp only [Bool.and_self, if_true]
  rw [digitVal_digitChar (Nat.mod_lt _ (by omega)),
    digitVal_digitChar (Nat.mod_lt _ (by omega)),
    digitVal_digitChar (Nat.mod_lt _ (by omega)),
    digitVal_digitChar (Nat.mod_lt _ (by omega))]
  congr 1
  omega

theorem daysInMonth_le (y m : Nat) : daysInMonth y m ≤ 31 := by
  unfold daysInMonth
  split
  · split <;> omega
  · split <;> omega

theorem parseISO_toISOString {t : Timestamp} (h : t.valid) :
    parseISO t.toISOString = some t := by
  obtain ⟨y, mo, d, hh, mi, s, f⟩ := t
  simp only [Timestamp.valid] at h
  obtain ⟨h1, h2, h3, h4, h5, h6, h7, h8, h9⟩ := h
  show parseISO ⟨_⟩ = _
  simp only [Timestamp.toISOString, pad4, pad3, pad2]
  simp only [parseISO, List.cons_append, List.nil_append]
  have hdm := daysInMonth_le y mo
  rw [readD4_pad4 h1, readD2_pad2 (by omega), readD2_pad2 (by omega),
    readD2_pad2 (by omega), readD2_pad2 (by omega), readD2_pad2 (by omega),
    readD3_pad3 h9]
  simp only [mkTs]
  rw [if_pos ⟨h2, h3, h4, h5, h6, h7, h8⟩]

/-!
Header maps: the source builds request headers in a JavaScript
`Record<string, string>`.  We model it as an association list with unique
keys; an assignment `headers[k] = v` either updates the existing entry in
place or appends a new one, exactly as property assignment behaves on a
plain object (insertion order preserved, later assignment to the same key
overwrites).
-/

/-- A JavaScript `Record<string, string>`: entries in insertion order. -/
abbrev HeaderMap := List (String × String)

/-- Property assignment `m[k] = v`: update in place if the key exists,
otherwise append. -/
def hset (m : HeaderMap) (k v : String) : HeaderMap :=
  if m.any (fun p => p.1 == k) then
    m.map (fun p => if p.1 == k then (k, v) else p)
  else m ++ [(k, v)]

/-- Property read `m[k]`. -/
def hget (m : HeaderMap) (k : String) : Option String :=
  (m.find? (fun p => p.1 == k)).map (fun p => p.2)

/-- Number of entries under a given name. -/
def countKeys (m : HeaderMap) (k : String) : Nat :=
  (m.filter (fun p => p.1 == k)).length

/-- The keys of a record are pairwise distinct. -/
def keysNodup (m : HeaderMap) : Prop := (m.map Prod.fst).Nodup

theorem hget_cons_pos {p : String × String} {t : HeaderMap} {k : String}
    (h : (p.1 == k) = true) : hget (p :: t) k = some p.2 := by
  unfold hget
  rw [List.find?, h]
  rfl

theorem hget_cons_neg {p : String × String} {t : HeaderMap} {k : String}
    (h : (p.1 == k) = false) : hget (p :: t) k = hget t k := by
  unfold hget
  rw [List.find?, h]

theorem hget_replace_self {m : HeaderMap} {k : String} (v : String)
    (h : (m.any fun p => p.1 == k) = true) :
    hget (m.map fun p => if p.1 == k then (k, v) else p) k = some v := by
  induction m with
  | nil => simp at h
  | cons p t ih =>
    by_cases hp : (p.1 == k) = true
    · rw [List.map_cons, if_pos hp, hget_cons_pos (by simp)]
    · rw [List.map_cons, if_neg hp,
        hget_cons_neg (by simpa using hp)]
      simp only [List.any_cons, hp, Bool.false_or] at h
      exact ih h

theorem hget_replace_other {m : HeaderMap} {k q : String} (v : String)
    (h : q ≠ k) :
    hget (m.map fun p => if p.1 == k then (k, v) else p) q = hget m q := by
  induction m with
  | nil => rfl
  | cons p t ih =>
    by_cases hp : (p.1 == k) = true
    · rw [List.map_cons, if_pos hp,
        hget_cons_neg (beq_eq_false_iff_ne.mpr (Ne.symm h)),
        hget_cons_neg (beq_eq_false_iff_ne.mpr
          (by rw [eq_of_beq hp]; exact Ne.symm h)), ih]
    · rw [List.map_cons, if_neg hp]
      by_cases hq : (p.1 == q) = true
      · rw [hget_cons_pos hq, hget_cons_pos hq]
      · rw [hget_cons_neg (by simpa using hq),
          hget_cons_neg (by simpa using hq), ih]

theorem hget_append_single_self {m : HeaderMap} {k : String} (v : String)
    (h : (m.any fun p => p.1 == k) = false) :
    hget (m ++ [(k, v)]) k = some v := by
  induction m with
  | nil => simp [hget]
  | cons p t ih =>
    simp only [List.any_cons, Bool.or_eq_false_iff] at h
    rw [List.cons_append, hget_cons_neg h.1]
    exact ih h.2

theorem hget_append_single_other {m : HeaderMap} {k q : String} (v : String)
    (h : q ≠ k) : hget (m ++ [(k, v)]) q = hget m q := by
  induction m with
  | nil =>
    rw [List.nil_append,
      hget_cons_neg (beq_eq_false_iff_ne.mpr (Ne.symm h))]
  | cons p t ih =>
    by_cases hq : (p.1 == q) = true
    · rw [List.cons_append, hget_cons_pos hq, hget_cons_pos hq]
    · rw [List.cons_append, hget_cons_neg (by simpa using hq),
        hget_cons_neg (by simpa using hq), ih]

theorem hget_hset_self (m : HeaderMap) (k v : String) :
    hget (hset m k v) k = some v := by
  unfold hset
  split
  case isTrue h => exact hget_replace_self v h
  case isFalse h =>
    exact hget_append_single_self v (by simp only [Bool.not_eq_true] at h; exact h)

theorem hget_hset_other (m : HeaderMap) {k q : String} (v : String)
    (h : q ≠ k) : hget (hset m k v) q = hget m q := by
  unfold hset
  split
  · exact hget_replace_other v h
  · exact hget_append_single_other v h

theorem done_head (x : String) : ("Done-" ++ x).data.head? = some 'D' := by
  rw [String.data_append]
  rfl

theorem done_ne_of_head {x y : String} (hy : y.data.head? ≠ some 'D') :
    "Done-" ++ x ≠ y := by
  intro h
  exact hy (h ▸ done_head x)

theorem done_append_inj {x y : String} (h : "Done-" ++ x = "Done-" ++ y) :
    x = y := by
  have hd := congrArg String.data h
  rw [String.data_append, String.data_append] at hd
  exact String.ext (List.append_cancel_left hd)

theorem keys_hset (m : HeaderMap) (k v : String) (h : keysNodup m) :
    keysNodup (hset m k v) := by
  unfold hset
  split
  case isTrue hany =>
    have : ((m.map fun p => if p.1 == k then (k, v) else p).map Prod.fst) =
        m.map Prod.fst := by
      rw [List.map_map]
      apply List.map_congr_left
      intro p _
      by_cases hp : p.1 = k
      · simp [hp]
      · simp [hp]
    unfold keysNodup
    rw [this]
    exact h
  case isFalse hany =>
    unfold keysNodup
    rw [List.map_append, List.nodup_append_comm]
    simp only [List.map_cons, List.map_nil, List.nil_append,
      List.singleton_append, List.nodup_cons]
    refine ⟨?_, h⟩
    intro hk
    apply hany
    simp only [List.mem_map] at hk
    obtain ⟨p, hpm, hpk⟩ := hk
    exact List.any_of_mem hpm (by simp [hpk])

theorem countKeys_eq_zero {m : HeaderMap} {k : String}
    (h : k ∉ m.map Prod.fst) : countKeys m k = 0 := by
  unfold countKeys
  rw [List.length_eq_zero]
  rw [List.filter_eq_nil_iff]
  intro p hp
  simp only [Bool.not_eq_true, beq_eq_false_iff_ne]
  intro hpk
  exact h (List.mem_map.mpr ⟨p, hp, hpk⟩)

theorem countKeys_eq_one {m : HeaderMap} {k : String}
    (hnd : keysNodup m) (hsome : (hget m k).isSome = true) :
    countKeys m k = 1 := by
  induction m with
  | nil => simp [hget] at hsome
  | cons p t ih =>
    unfold keysNodup at hnd
    simp only [List.map_cons, List.nodup_cons] at hnd
    by_cases hp : (p.1 == k) = true
    · have hk : k ∉ t.map Prod.fst := by
        rw [← eq_of_beq hp]
        exact hnd.1
      unfold countKeys
      rw [List.filter_cons_of_pos (by simp [hp])]
      have h0 := countKeys_eq_zero hk
      unfold countKeys at h0
      simp [h0]
    · rw [hget_cons_neg (by simpa using hp)] at hsome
      unfold countKeys
      rw [List.filter_cons_of_neg (by simp [hp])]
      exact ih hnd.2 hsome

/-!
JSON values and `JSON.stringify`, modelling the `unknown` message body and
its serialization.  Numbers are modelled as integers (the payloads the
library documents are JSON objects and primitives; the claims under proof
do not depend on float formatting).
-/

/-- A JSON value (the `unknown` body argument of `sendMessage`). -/
inductive Json where
  | null
  | bool (b : Bool)
  | num (n : Int)
  | str (s : String)
  | arr (xs : List Json)
  | obj (fields : List (String × Json))

/-- Escape a string for inclusion in JSON text. -/
def escapeString (s : String) : String :=
  s.foldl
    (fun acc c =>
      acc ++ (if c = '"' then "\\\"" else if c = '\\' then "\\\\"
        else String.mk [c]))
    ""

mutual

/-- `JSON.stringify` on our JSON values. -/
def Json.stringify : Json → String
  | .null => "null"
  | .bool true => "true"
  | .bool false => "false"
  | .num n => toString n
  | .str s => "\"" ++ escapeString s ++ "\""
  | .arr xs => "[" ++ stringifyArr xs ++ "]"
  | .obj fs => "\x7b" ++ stringifyObj fs ++ "\x7d"

/-- Comma-separated serialization of a JSON array's elements. -/
def stringifyArr : List Json → String
  | [] => ""
  | [x] => Json.stringify x
  | x :: xs => Json.stringify x ++ "," ++ stringifyArr xs

/-- Comma-separated serialization of a JSON object's fields. -/
def stringifyObj : List (String × Json) → String
  | [] => ""
  | [(k, v)] => "\"" ++ escapeString k ++ "\":" ++ Json.stringify v
  | (k, v) :: fs =>
    "\"" ++ escapeString k ++ "\":" ++ Json.stringify v ++ "," ++
      stringifyObj fs

end

/-- JavaScript truthiness of a JSON value (`null`, `false`, `0` and the
empty string are falsy; objects and arrays are always truthy). -/
def Json.truthy : Json → Bool
  | .null => false
  | .bool b => b
  | .num n => n != 0
  | .str s => s != ""
  | .arr _ => true
  | .obj _ => true

/-!
The data model of `src/types.ts` and the client of `src/client.ts`.
Wire structures (`...Wire`) are the parsed JSON response shapes, with
timestamps still ISO strings; the corresponding result structures carry
`JSDate` values, exactly as the TypeScript types carry `Date`.  The wire
`status` field is kept as the raw string the server sent because the code
passes it through without validation.
-/

/-- `DoneClientConfig` (`src/types.ts`). -/
structure DoneClientConfig where
  baseUrl : String
  authToken : String
deriving DecidableEq

/-- The `DoneClient` class: its only state is the immutable config. -/
structure DoneClient where
  config : DoneClientConfig
deriving DecidableEq

/-- `DoneClient.create(baseUrl, authToken)` (`src/client.ts`). -/
def DoneClient.create (baseUrl authToken : String) : DoneClient :=
  ⟨⟨baseUrl, authToken⟩⟩

/-- The `delay` option: `string | Date`. -/
inductive DelayValue where
  | str (s : String)
  | date (d : Timestamp)
deriving DecidableEq

/-- `SendMessageOptions` (`src/types.ts`).  A `Date`-valued field holds a
`Timestamp` (a point in time). -/
structure SendMessageOptions where
  delay : Option DelayValue
  notBefore : Option Timestamp
  headers : Option HeaderMap
  maxAttempts : Option Nat
  failureCallback : Option String
deriving DecidableEq

/-- An outbound HTTP request as handed to `fetch`. -/
structure Request where
  method : String
  url : String
  headers : HeaderMap
  body : Option String
deriving DecidableEq

/-- The two headers `sendMessage` always sets first. -/
def baseHeaders (c : DoneClient) : HeaderMap :=
  [("Authorization", "Bearer " ++ c.config.authToken),
    ("Content-Type", "application/json")]

/-- The `if (options?.delay)` block: a truthy string delay is forwarded
verbatim, a `Date` delay as its ISO serialization (an empty-string delay is
falsy, so the block is skipped). -/
def applyDelay (o : SendMessageOptions) (h : HeaderMap) : HeaderMap :=
  match o.delay with
  | none => h
  | some (.str s) => if s = "" then h else hset h "Done-Delay" s
  | some (.date d) => hset h "Done-Delay" d.toISOString

/-- The `if (options?.notBefore)` block (a `Date` object is always
truthy). -/
def applyNotBefore (o : SendMessageOptions) (h : HeaderMap) : HeaderMap :=
  match o.notBefore with
  | none => h
  | some d => hset h "Done-Not-Before" d.toISOString

/-- The `if (options?.maxAttempts)` block (`0` is falsy). -/
def applyMaxAttempts (o : SendMessageOptions) (h : HeaderMap) : HeaderMap :=
  match o.maxAttempts with
  | none => h
  | some n => if n = 0 then h else hset h "Done-Max-Attempts" (toString n)

/-- The `if (options?.failureCallback)` block (an empty string is
falsy). -/
def applyFailureCallback (o : SendMessageOptions) (h : HeaderMap) :
    HeaderMap :=
  match o.failureCallback with
  | none => h
  | some s => if s = "" then h else hset h "Done-Failure-Callback" s

/-- The `if (options?.headers)` block: every custom entry is written, in
entry order, under the namespaced name `Done-` + key (an object is always
truthy). -/
def applyCustom (o : SendMessageOptions) (h : HeaderMap) : HeaderMap :=
  match o.headers with
  | none => h
  | some hs => hs.foldl (fun acc kv => hset acc ("Done-" ++ kv.1) kv.2) h

/-- The complete header record `sendMessage` builds, in source order. -/
def DoneClient.sendHeaders (c : DoneClient)
    (options : Option SendMessageOptions) : HeaderMap :=
  match options with
  | none => baseHeaders c
  | some o =>
    applyCustom o (applyFailureCallback o (applyMaxAttempts o
      (applyNotBefore o (applyDelay o (baseHeaders c)))))

/-- The one request `sendMessage` issues: a POST to
`{baseUrl}/v1/{callbackUrl}` with the headers above; the body is attached
only when the supplied body is truthy (`if (body)`). -/
def DoneClient.sendMessageRequest (c : DoneClient) (callbackUrl : String)
    (body : Option Json) (options : Option SendMessageOptions) : Request :=
  ⟨"POST", c.config.baseUrl ++ "/v1/" ++ callbackUrl, c.sendHeaders options,
    match body with
    | some b => if b.truthy then some b.stringify else none
    | none => none⟩

/-- A transport response: HTTP status, status text, and the parsed JSON
body (already decoded into the wire shape the operation expects). -/
structure Response (α : Type) where
  status : Nat
  statusText : String
  body : α
deriving DecidableEq

/-- `response.ok` of the Fetch API: status in the inclusive range
200–299. -/
def Response.ok {α : Type} (r : Response α) : Bool :=
  200 ≤ r.status && r.status < 300

/-- Wire shape of a successful `sendMessage` response body. -/
structure SendMessageWire where
  messageId : String
  scheduledAt : String
deriving DecidableEq

/-- `SendMessageResponse` (`src/types.ts`). -/
structure SendMessageResponse where
  messageId : String
  scheduledAt : JSDate
deriving DecidableEq

/-- Response normalization of `sendMessage`: non-ok throws, ok yields the
`messageId` verbatim and `new Date(result.scheduledAt)`. -/
def sendMessageResult (r : Response SendMessageWire) :
    Except String SendMessageResponse :=
  if r.ok then
    .ok ⟨r.body.messageId, jsDate r.body.scheduledAt⟩
  else
    .error ("Failed to send message: " ++ toString r.status ++ " " ++
      r.statusText)

/-- `sendMessage(callbackUrl, body?, options?)`: issues exactly one request
(first component) and maps the transport's response to its result or error
(second component). -/
def DoneClient.sendMessage (c : DoneClient) (callbackUrl : String)
    (body : Option Json) (options : Option SendMessageOptions)
    (r : Response SendMessageWire) :
    Request × Except String SendMessageResponse :=
  (c.sendMessageRequest callbackUrl body options, sendMessageResult r)

/-- Wire shape of a `getMessage` response body: the `DoneMessage` fields
with timestamps still ISO strings.  `status` is the raw string the server
sent (the code forwards it unvalidated). -/
structure DoneMessageWire where
  id : String
  callbackUrl : String
  body : Option String
  headers : Option HeaderMap
  scheduledAt : String
  status : String
  attempts : Nat
  maxAttempts : Nat
  createdAt : String
  updatedAt : String
  lastAttemptAt : Option String
  error : Option String
deriving DecidableEq

/-- `DoneMessage` (`src/types.ts`), with `Date` fields as `JSDate`. -/
structure DoneMessage where
  id : String
  callbackUrl : String
  body : Option String
  headers : Option HeaderMap
  scheduledAt : JSDate
  status : String
  attempts : Nat
  maxAttempts : Nat
  createdAt : JSDate
  updatedAt : JSDate
  lastAttemptAt : Option JSDate
  error : Option String
deriving DecidableEq

/-- The conditional `x ? new Date(x) : undefined` applied to an optional
wire timestamp (an empty string is falsy and yields `undefined`). -/
def optDate (o : Option String) : Option JSDate :=
  match o with
  | none => none
  | some s => if s = "" then none else some (jsDate s)

/-- The one request `getMessage` issues: a GET to `{baseUrl}/v1/{messageId}`
with only the authorization header. -/
def DoneClient.getMessageRequest (c : DoneClient) (messageId : String) :
    Request :=
  ⟨"GET", c.config.baseUrl ++ "/v1/" ++ messageId,
    [("Authorization", "Bearer " ++ c.config.authToken)], none⟩

/-- Response normalization of `getMessage`: non-ok throws; ok spreads the
parsed data and replaces only the four timestamp fields. -/
def getMessageResult (r : Response DoneMessageWire) :
    Except String DoneMessage :=
  if r.ok then
    .ok ⟨r.body.id, r.body.callbackUrl, r.body.body, r.body.headers,
      jsDate r.body.scheduledAt, r.body.status, r.body.attempts,
      r.body.maxAttempts, jsDate r.body.createdAt, jsDate r.body.updatedAt,
      optDate r.body.lastAttemptAt, r.body.error⟩
  else
    .error ("Failed to get message: " ++ toString r.status ++ " " ++
      r.statusText)

/-- `getMessage(messageId)`: one request, one normalized response. -/
def DoneClient.getMessage (c : DoneClient) (messageId : String)
    (r : Response DoneMessageWire) : Request × Except String DoneMessage :=
  (c.getMessageRequest messageId, getMessageResult r)

/-- `MessageStatus` (`src/types.ts`): a closed enumeration. -/
inductive MessageStatus where
  | CREATED
  | QUEUED
  | DELIVER
  | SENT
  | RETRY
  | DLQ
  | ARCHIVED
deriving DecidableEq

/-- The string value of a `MessageStatus` (the enum's value, used in the
request path). -/
def MessageStatus.toWire : MessageStatus → String
  | .CREATED => "CREATED"
  | .QUEUED => "QUEUED"
  | .DELIVER => "DELIVER"
  | .SENT => "SENT"
  | .RETRY => "RETRY"
  | .DLQ => "DLQ"
  | .ARCHIVED => "ARCHIVED"

/-- Wire shape of one `getMessagesByStatus` array entry. -/
structure MessageStatusInfoWire where
  id : String
  status : String
  attempts : Nat
  scheduledAt : String
  lastAttemptAt : Option String
  error : Option String
deriving DecidableEq

/-- `MessageStatusInfo` (`src/types.ts`), with `Date` fields as
`JSDate`. -/
structure MessageStatusInfo where
  id : String
  status : String
  attempts : Nat
  scheduledAt : JSDate
  lastAttemptAt : Option JSDate
  error : Option String
deriving DecidableEq

/-- The per-entry conversion inside `data.map((item) => ...)`: spread the
entry, replace `scheduledAt` and (conditionally) `lastAttemptAt`. -/
def convertStatusInfo (item : MessageStatusInfoWire) : MessageStatusInfo :=
  ⟨item.id, item.status, item.attempts, jsDate item.scheduledAt,
    optDate item.lastAttemptAt, item.error⟩

/-- The one request `getMessagesByStatus` issues: a GET to
`{baseUrl}/v1/by-status/{status}` with only the authorization header. -/
def DoneClient.getMessagesByStatusRequest (c : DoneClient)
    (status : MessageStatus) : Request :=
  ⟨"GET", c.config.baseUrl ++ "/v1/by-status/" ++ status.toWire,
    [("Authorization", "Bearer " ++ c.config.authToken)], none⟩

/-- Response normalization of `getMessagesByStatus`: non-ok throws; ok maps
the conversion over the array. -/
def getMessagesByStatusResult (r : Response (List MessageStatusInfoWire)) :
    Except String (List MessageStatusInfo) :=
  if r.ok then
    .ok (r.body.map convertStatusInfo)
  else
    .error ("Failed to get messages by status: " ++ toString r.status ++
      " " ++ r.statusText)

/-- `getMessagesByStatus(status)`: one request, one normalized response. -/
def DoneClient.getMessagesByStatus (c : DoneClient) (status : MessageStatus)
    (r : Response (List MessageStatusInfoWire)) :
    Request × Except String (List MessageStatusInfo) :=
  (c.getMessagesByStatusRequest status, getMessagesByStatusResult r)

/-- Whether an operation completed without throwing. -/
def isSuccess {α : Type} : Except String α → Bool
  | .ok _ => true
  | .error _ => false

theorem hget_foldl_ne (hs : HeaderMap) (m : HeaderMap) {k : String}
    (hk : ∀ p ∈ hs, "Done-" ++ p.1 ≠ k) :
    hget (hs.foldl (fun acc kv => hset acc ("Done-" ++ kv.1) kv.2) m) k =
      hget m k := by
  induction hs generalizing m with
  | nil => rfl
  | cons p t ih =>
    rw [List.foldl_cons,
      ih _ (fun q hq => hk q (List.mem_cons_of_mem p hq)),
      hget_hset_other m _ (hk p (List.mem_cons_self p t)).symm]

theorem hget_foldl_mem (hs : HeaderMap) (m : HeaderMap) {K V : String}
    (hnd : (hs.map Prod.fst).Nodup) (hmem : (K, V) ∈ hs) :
    hget (hs.foldl (fun acc kv => hset acc ("Done-" ++ kv.1) kv.2) m)
      ("Done-" ++ K) = some V := by
  induction hs generalizing m with
  | nil => cases hmem
  | cons p t ih =>
    simp only [List.map_cons, List.nodup_cons] at hnd
    rcases List.mem_cons.mp hmem with heq | hmem2
    · cases heq
      rw [List.foldl_cons]
      rw [hget_foldl_ne t _ ?hne]
      · exact hget_hset_self m _ _
      case hne =>
        intro q hq hcontra
        exact hnd.1 (List.mem_map.mpr ⟨q, hq, done_append_inj hcontra⟩)
    · rw [List.foldl_cons]
      exact ih _ hnd.2 hmem2

theorem hget_applyDelay_ne (o : SendMessageOptions) (h : HeaderMap)
    {k : String} (hk : k ≠ "Done-Delay") :
    hget (applyDelay o h) k = hget h k := by
  cases ho : o.delay with
  | none => simp [applyDelay, ho]
  | some v =>
    cases v with
    | str s =>
      simp only [applyDelay, ho]
      split
      · rfl
      · exact hget_hset_other h _ hk
    | date d =>
      simp only [applyDelay, ho]
      exact hget_hset_other h _ hk

theorem hget_applyNotBefore_ne (o : SendMessageOptions) (h : HeaderMap)
    {k : String} (hk : k ≠ "Done-Not-Before") :
    hget (applyNotBefore o h) k = hget h k := by
  cases ho : o.notBefore with
  | none => simp [applyNotBefore, ho]
  | some d =>
    simp only [applyNotBefore, ho]
    exact hget_hset_other h _ hk

theorem hget_applyMaxAttempts_ne (o : SendMessageOptions) (h : HeaderMap)
    {k : String} (hk : k ≠ "Done-Max-Attempts") :
    hget (applyMaxAttempts o h) k = hget h k := by
  cases ho : o.maxAttempts with
  | none => simp [applyMaxAttempts, ho]
  | some n =>
    simp only [applyMaxAttempts, ho]
    split
    · rfl
    · exact hget_hset_other h _ hk

theorem hget_applyFailureCallback_ne (o : SendMessageOptions)
    (h : HeaderMap) {k : String} (hk : k ≠ "Done-Failure-Callback") :
    hget (applyFailureCallback o h) k = hget h k := by
  cases ho : o.failureCallback with
  | none => simp [applyFailureCallback, ho]
  | some s =>
    simp only [applyFailureCallback, ho]
    split
    · rfl
    · exact hget_hset_other h _ hk

theorem hget_applyCustom_ne (o : SendMessageOptions) (h : HeaderMap)
    {k : String}
    (hk : ∀ hs, o.headers = some hs → ∀ p ∈ hs, "Done-" ++ p.1 ≠ k) :
    hget (applyCustom o h) k = hget h k := by
  cases ho : o.headers with
  | none => simp [applyCustom, ho]
  | some hs =>
    simp only [applyCustom, ho]
    exact hget_foldl_ne hs h (hk hs ho)

theorem hget_sendHeaders_base (c : DoneClient) (o : SendMessageOptions)
    {k : String} (h1 : k ≠ "Done-Delay") (h2 : k ≠ "Done-Not-Before")
    (h3 : k ≠ "Done-Max-Attempts") (h4 : k ≠ "Done-Failure-Callback")
    (h5 : ∀ hs, o.headers = some hs → ∀ p ∈ hs, "Done-" ++ p.1 ≠ k) :
    hget (c.sendHeaders (some o)) k = hget (baseHeaders c) k := by
  unfold DoneClient.sendHeaders
  rw [hget_applyCustom_ne _ _ h5, hget_applyFailureCallback_ne _ _ h4,
    hget_applyMaxAttempts_ne _ _ h3, hget_applyNotBefore_ne _ _ h2,
    hget_applyDelay_ne _ _ h1]

theorem hget_base_auth (c : DoneClient) :
    hget (baseHeaders c) "Authorization" =
      some ("Bearer " ++ c.config.authToken) := rfl

theorem hget_base_ct (c : DoneClient) :
    hget (baseHeaders c) "Content-Type" = some "application/json" := rfl

theorem keys_foldl (hs : HeaderMap) (m : HeaderMap) (h : keysNodup m) :
    keysNodup (hs.foldl (fun acc kv => hset acc ("Done-" ++ kv.1) kv.2) m) := by
  induction hs generalizing m with
  | nil => exact h
  | cons p t ih => exact ih _ (keys_hset _ _ _ h)

theorem keys_applyDelay (o : SendMessageOptions) (h : HeaderMap)
    (hn : keysNodup h) : keysNodup (applyDelay o h) := by
  cases ho : o.delay with
  | none => simpa [applyDelay, ho] using hn
  | some v =>
    cases v with
    | str s =>
      simp only [applyDelay, ho]
      split
      · exact hn
      · exact keys_hset _ _ _ hn
    | date d =>
      simp only [applyDelay, ho]
      exact keys_hset _ _ _ hn

theorem keys_applyNotBefore (o : SendMessageOptions) (h : HeaderMap)
    (hn : keysNodup h) : keysNodup (applyNotBefore o h) := by
  cases ho : o.notBefore with
  | none => simpa [applyNotBefore, ho] using hn
  | some d =>
    simp only [applyNotBefore, ho]
    exact keys_hset _ _ _ hn

theorem keys_applyMaxAttempts (o : SendMessageOptions) (h : HeaderMap)
    (hn : keysNodup h) : keysNodup (applyMaxAttempts o h) := by
  cases ho : o.maxAttempts with
  | none => simpa [applyMaxAttempts, ho] using hn
  | some n =>
    simp only [applyMaxAttempts, ho]
    split
    · exact hn
    · exact keys_hset _ _ _ hn

theorem keys_applyFailureCallback (o : SendMessageOptions) (h : HeaderMap)
    (hn : keysNodup h) : keysNodup (applyFailureCallback o h) := by
  cases ho : o.failureCallback with
  | none => simpa [applyFailureCallback, ho] using hn
  | some s =>
    simp only [applyFailureCallback, ho]
    split
    · exact hn
    · exact keys_hset _ _ _ hn

theorem keys_applyCustom (o : SendMessageOptions) (h : HeaderMap)
    (hn : keysNodup h) : keysNodup (applyCustom o h) := by
  cases ho : o.headers with
  | none => simpa [applyCustom, ho] using hn
  | some hs =>
    simp only [applyCustom, ho]
    exact keys_foldl hs h hn

theorem keys_base (c : DoneClient) : keysNodup (baseHeaders c) := by
  unfold keysNodup baseHeaders
  simp only [List.map_cons, List.map_nil]
  exact List.nodup_cons.mpr ⟨by decide, List.nodup_singleton _⟩

theorem keys_sendHeaders (c : DoneClient)
    (options : Option SendMessageOptions) :
    keysNodup (c.sendHeaders options) := by
  cases options with
  | none => exact keys_base c
  | some o =>
    exact keys_applyCustom o _ (keys_applyFailureCallback o _
      (keys_applyMaxAttempts o _ (keys_applyNotBefore o _
        (keys_applyDelay o _ (keys_base c)))))

theorem hget_applyDelay_str (o : SendMessageOptions) (h : HeaderMap)
    {s : String} (ho : o.delay = some (.str s)) (hs : s ≠ "") :
    hget (applyDelay o h) "Done-Delay" = some s := by
  simp only [applyDelay, ho]
  rw [if_neg hs]
  exact hget_hset_self h _ _

theorem hget_applyDelay_date (o : SendMessageOptions) (h : HeaderMap)
    {d : Timestamp} (ho : o.delay = some (.date d)) :
    hget (applyDelay o h) "Done-Delay" = some d.toISOString := by
  simp only [applyDelay, ho]
  exact hget_hset_self h _ _

theorem applyDelay_of_none (o : SendMessageOptions) (h : HeaderMap)
    (ho : o.delay = none) : applyDelay o h = h := by
  simp [applyDelay, ho]

theorem hget_applyNotBefore_date (o : SendMessageOptions) (h : HeaderMap)
    {d : Timestamp} (ho : o.notBefore = some d) :
    hget (applyNotBefore o h) "Done-Not-Before" = some d.toISOString := by
  simp only [applyNotBefore, ho]
  exact hget_hset_self h _ _

theorem hget_applyMaxAttempts_pos (o : SendMessageOptions) (h : HeaderMap)
    {n : Nat} (ho : o.maxAttempts = some n) (hn : n ≠ 0) :
    hget (applyMaxAttempts o h) "Done-Max-Attempts" = some (toString n) := by
  simp only [applyMaxAttempts, ho]
  rw [if_neg hn]
  exact hget_hset_self h _ _

theorem hget_applyFailureCallback_str (o : SendMessageOptions)
    (h : HeaderMap) {s : String} (ho : o.failureCallback = some s)
    (hs : s ≠ "") :
    hget (applyFailureCallback o h) "Done-Failure-Callback" = some s := by
  simp only [applyFailureCallback, ho]
  rw [if_neg hs]
  exact hget_hset_self h _ _

theorem applyNotBefore_of_none (o : SendMessageOptions) (h : HeaderMap)
    (ho : o.notBefore = none) : applyNotBefore o h = h := by
  simp [applyNotBefore, ho]

theorem applyMaxAttempts_of_none (o : SendMessageOptions) (h : HeaderMap)
    (ho : o.maxAttempts = none) : applyMaxAttempts o h = h := by
  simp [applyMaxAttempts, ho]

theorem applyFailureCallback_of_none (o : SendMessageOptions) (h : HeaderMap)
    (ho : o.failureCallback = none) : applyFailureCallback o h = h := by
  simp [applyFailureCallback, ho]

theorem applyDelay_of_empty (o : SendMessageOptions) (h : HeaderMap)
    (ho : o.delay = some (.str "")) : applyDelay o h = h := by
  simp [applyDelay, ho]

theorem applyFailureCallback_of_empty (o : SendMessageOptions)
    (h : HeaderMap) (ho : o.failureCallback = some "") :
    applyFailureCallback o h = h := by
  simp [applyFailureCallback, ho]

theorem hget_base_none (c : DoneClient) {k : String}
    (h1 : k ≠ "Authorization") (h2 : k ≠ "Content-Type") :
    hget (baseHeaders c) k = none := by
  unfold baseHeaders
  rw [hget_cons_neg (beq_eq_false_iff_ne.mpr (Ne.symm h1)),
    hget_cons_neg (beq_eq_false_iff_ne.mpr (Ne.symm h2))]
  rfl

theorem hget_sendHeaders_delay_eq (c : DoneClient) (o : SendMessageOptions)
    (hcust : ∀ hs, o.headers = some hs → ∀ p ∈ hs, p.1 ≠ "Delay") :
    hget (c.sendHeaders (some o)) "Done-Delay" =
      hget (applyDelay o (baseHeaders c)) "Done-Delay" := by
  unfold DoneClient.sendHeaders
  rw [hget_applyCustom_ne _ _ (fun hs hho p hp hc =>
      hcust hs hho p hp (done_append_inj (hc.trans (by decide)))),
    hget_applyFailureCallback_ne _ _ (by decide),
    hget_applyMaxAttempts_ne _ _ (by decide),
    hget_applyNotBefore_ne _ _ (by decide)]

theorem hget_sendHeaders_notBefore_eq (c : DoneClient)
    (o : SendMessageOptions)
    (hcust : ∀ hs, o.headers = some hs → ∀ p ∈ hs, p.1 ≠ "Not-Before") :
    hget (c.sendHeaders (some o)) "Done-Not-Before" =
      hget (applyNotBefore o (applyDelay o (baseHeaders c)))
        "Done-Not-Before" := by
  unfold DoneClient.sendHeaders
  rw [hget_applyCustom_ne _ _ (fun hs hho p hp hc =>
      hcust hs hho p hp (done_append_inj (hc.trans (by decide)))),
    hget_applyFailureCallback_ne _ _ (by decide),
    hget_applyMaxAttempts_ne _ _ (by decide)]

theorem hget_sendHeaders_maxAttempts_eq (c : DoneClient)
    (o : SendMessageOptions)
    (hcust : ∀ hs, o.headers = some hs → ∀ p ∈ hs, p.1 ≠ "Max-Attempts") :
    hget (c.sendHeaders (some o)) "Done-Max-Attempts" =
      hget (applyMaxAttempts o (applyNotBefore o (applyDelay o
        (baseHeaders c)))) "Done-Max-Attempts" := by
  unfold DoneClient.sendHeaders
  rw [hget_applyCustom_ne _ _ (fun hs hho p hp hc =>
      hcust hs hho p hp (done_append_inj (hc.trans (by decide)))),
    hget_applyFailureCallback_ne _ _ (by decide)]

theorem hget_sendHeaders_failureCallback_eq (c : DoneClient)
    (o : SendMessageOptions)
    (hcust : ∀ hs, o.headers = some hs → ∀ p ∈ hs,
      p.1 ≠ "Failure-Callback") :
    hget (c.sendHeaders (some o)) "Done-Failure-Callback" =
      hget (applyFailureCallback o (applyMaxAttempts o (applyNotBefore o
        (applyDelay o (baseHeaders c))))) "Done-Failure-Callback" := by
  unfold DoneClient.sendHeaders
  rw [hget_applyCustom_ne _ _ (fun hs hho p hp hc =>
      hcust hs hho p hp (done_append_inj (hc.trans (by decide))))]

/-- C1 (amended): every `sendMessage` call issues exactly one POST request
to `{baseUrl}/v1/{callbackUrl}` carrying `Authorization: Bearer {token}`
and `Content-Type: application/json`; if a body is present and truthy the
payload is exactly its JSON serialization, and if the body is absent — or
present but falsy (`null`, `false`, `0`, `""`), because the source guards
the payload with JavaScript truthiness (`if (body)`) — no payload is
sent. -/
theorem C1_sendMessage_request (c : DoneClient) (cb : String)
    (b : Option Json) (o : Option SendMessageOptions) :
    (c.sendMessageRequest cb b o).method = "POST" ∧
    (c.sendMessageRequest cb b o).url = c.config.baseUrl ++ "/v1/" ++ cb ∧
    hget (c.sendMessageRequest cb b o).headers "Authorization" =
      some ("Bearer " ++ c.config.authToken) ∧
    hget (c.sendMessageRequest cb b o).headers "Content-Type" =
      some "application/json" ∧
    (∀ jb, b = some jb → jb.truthy = true →
      (c.sendMessageRequest cb b o).body = some jb.stringify) ∧
    (∀ jb, b = some jb → jb.truthy = false →
      (c.sendMessageRequest cb b o).body = none) ∧
    (b = none → (c.sendMessageRequest cb b o).body = none) := by
  refine ⟨rfl, rfl, ?_, ?_, ?_, ?_, ?_⟩
  · show hget (c.sendHeaders o) "Authorization" = _
    cases o with
    | none => exact hget_base_auth c
    | some o' =>
      rw [hget_sendHeaders_base c o' (by decide) (by decide) (by decide)
        (by decide) (fun hs hho p hp => done_ne_of_head (by decide))]
      exact hget_base_auth c
  · show hget (c.sendHeaders o) "Content-Type" = _
    cases o with
    | none => exact hget_base_ct c
    | some o' =>
      rw [hget_sendHeaders_base c o' (by decide) (by decide) (by decide)
        (by decide) (fun hs hho p hp => done_ne_of_head (by decide))]
      exact hget_base_ct c
  · intro jb hb ht
    subst hb
    simp [DoneClient.sendMessageRequest, ht]
  · intro jb hb ht
    subst hb
    simp [DoneClient.sendMessageRequest, ht]
  · intro hb
    subst hb
    rfl

/-- C1: the claim as stated is false — a present body that is falsy (here
the JSON number `0`) is dropped by `if (body)`, so no payload is sent even
though the claim demands the serialization `"0"`. -/
theorem C1_counterexample :
    (DoneClient.sendMessageRequest
      (DoneClient.create "https://api.example.com" "token") "webhook-url"
      (some (Json.num 0)) none).body ≠ some (Json.num 0).stringify := by
  intro h
  exact Option.noConfusion h

/-- C1: witness instantiating the amended theorem at concrete inputs. -/
theorem C1_sendMessage_request_witness :
    (DoneClient.sendMessageRequest
      (DoneClient.create "https://api.example.com" "token") "webhook-url"
      (some (Json.str "data")) none).body =
        some (Json.str "data").stringify ∧
    (DoneClient.sendMessageRequest
      (DoneClient.create "https://api.example.com" "token") "webhook-url"
      none none).body = none ∧
    hget (DoneClient.sendMessageRequest
      (DoneClient.create "https://api.example.com" "token") "webhook-url"
      (some (Json.str "data")) none).headers "Authorization" =
        some ("Bearer " ++ "token") := by
  refine ⟨?_, ?_, ?_⟩
  · exact (C1_sendMessage_request _ "webhook-url" _ none).2.2.2.2.1 _ rfl
      (by decide)
  · exact (C1_sendMessage_request _ "webhook-url" none none).2.2.2.2.2.2 rfl
  · exact (C1_sendMessage_request
      (DoneClient.create "https://api.example.com" "token") "webhook-url"
      (some (Json.str "data")) none).2.2.1

/-- C2 (amended): provided no caller-supplied custom-header key is exactly
`Delay` (a colliding custom entry would overwrite the control header, cf.
C10), a non-empty string delay is forwarded verbatim under `Done-Delay`, a
`Date` delay is forwarded as its ISO-8601 serialization, only one of the
two representations can occur, and with no delay option no `Done-Delay`
header is sent.  An empty-string delay is falsy for `if (options?.delay)`,
so it sends no header (this is the correction to the original claim). -/
theorem C2_delay_header (c : DoneClient) (o : SendMessageOptions)
    (hcust : ∀ hs, o.headers = some hs → ∀ p ∈ hs, p.1 ≠ "Delay") :
    (∀ s, o.delay = some (.str s) → s ≠ "" →
      hget (c.sendHeaders (some o)) "Done-Delay" = some s) ∧
    (∀ d, o.delay = some (.date d) →
      hget (c.sendHeaders (some o)) "Done-Delay" = some d.toISOString) ∧
    (o.delay = none → hget (c.sendHeaders (some o)) "Done-Delay" = none) ∧
    hget (c.sendHeaders none) "Done-Delay" = none ∧
    (o.delay = some (.str "") →
      hget (c.sendHeaders (some o)) "Done-Delay" = none) := by
  refine ⟨?_, ?_, ?_, ?_, ?_⟩
  · intro s hd hs
    rw [hget_sendHeaders_delay_eq c o hcust]
    exact hget_applyDelay_str o _ hd hs
  · intro d hd
    rw [hget_sendHeaders_delay_eq c o hcust]
    exact hget_applyDelay_date o _ hd
  · intro hd
    rw [hget_sendHeaders_delay_eq c o hcust, applyDelay_of_none o _ hd]
    exact hget_base_none c (by decide) (by decide)
  · exact hget_base_none c (by decide) (by decide)
  · intro hd
    rw [hget_sendHeaders_delay_eq c o hcust, applyDelay_of_empty o _ hd]
    exact hget_base_none c (by decide) (by decide)

/-- C2: the claim as stated is false — an empty string is a string delay,
but being falsy it is not forwarded at all, where the claim demands it be
forwarded verbatim. -/
theorem C2_counterexample :
    hget (DoneClient.sendHeaders (DoneClient.create "u" "t")
      (some ⟨some (.str ""), none, none, none, none⟩)) "Done-Delay" ≠
        some "" := by decide

/-- C2: witness instantiating the amended theorem at concrete inputs. -/
theorem C2_delay_header_witness :
    hget (DoneClient.sendHeaders (DoneClient.create "u" "t")
      (some ⟨some (.str "5m"), none, none, none, none⟩)) "Done-Delay" =
        some "5m" ∧
    hget (DoneClient.sendHeaders (DoneClient.create "u" "t")
      (some ⟨none, none, none, none, none⟩)) "Done-Delay" = none ∧
    hget (DoneClient.sendHeaders (DoneClient.create "u" "t")
      (some ⟨some (.str ""), none, none, none, none⟩)) "Done-Delay" =
        none := by
  refine ⟨?_, ?_, ?_⟩
  · exact (C2_delay_header _ _ (fun hs hho => Option.noConfusion hho)).1
      "5m" rfl (by decide)
  · exact (C2_delay_header _ _
      (fun hs hho => Option.noConfusion hho)).2.2.1 rfl
  · exact (C2_delay_header _ _
      (fun hs hho => Option.noConfusion hho)).2.2.2.2 rfl

/-- C3: every entry `{K: V}` of the caller-supplied custom-headers mapping
(whose keys, being object properties, are pairwise distinct) produces
exactly one request header named `Done-{K}`, and its value is exactly V. -/
theorem C3_custom_headers (c : DoneClient) (o : SendMessageOptions)
    (hs : HeaderMap) (K V : String) (hho : o.headers = some hs)
    (hnd : (hs.map Prod.fst).Nodup) (hmem : (K, V) ∈ hs) :
    hget (c.sendHeaders (some o)) ("Done-" ++ K) = some V ∧
    countKeys (c.sendHeaders (some o)) ("Done-" ++ K) = 1 := by
  have hv : hget (c.sendHeaders (some o)) ("Done-" ++ K) = some V := by
    unfold DoneClient.sendHeaders
    simp only [applyCustom, hho]
    exact hget_foldl_mem hs _ hnd hmem
  exact ⟨hv, countKeys_eq_one (keys_sendHeaders c (some o))
    (by rw [hv]; rfl)⟩

/-- C3: witness instantiating the theorem at a concrete custom header. -/
theorem C3_custom_headers_witness :
    hget (DoneClient.sendHeaders (DoneClient.create "u" "t")
      (some ⟨none, none, some [("X-Custom-ID", "order-456")], none, none⟩))
      ("Done-" ++ "X-Custom-ID") = some "order-456" ∧
    countKeys (DoneClient.sendHeaders (DoneClient.create "u" "t")
      (some ⟨none, none, some [("X-Custom-ID", "order-456")], none, none⟩))
      ("Done-" ++ "X-Custom-ID") = 1 :=
  C3_custom_headers _ _ [("X-Custom-ID", "order-456")] "X-Custom-ID"
    "order-456" rfl (by decide) (by decide)

/-- C4 (amended): provided no caller-supplied custom-header key is exactly
`Not-Before`, `Max-Attempts` or `Failure-Callback` (a colliding custom
entry would overwrite the control header, cf. C10): a present `notBefore`
yields `Done-Not-Before` with its ISO-8601 serialization; a present
positive `maxAttempts` yields `Done-Max-Attempts` with its decimal string;
a present non-empty `failureCallback` yields `Done-Failure-Callback`
verbatim — an empty string is falsy for `if (options?.failureCallback)`
and sends no header (the correction to the original claim); each absent
option produces no corresponding header. -/
theorem C4_control_headers (c : DoneClient) (o : SendMessageOptions)
    (hcust : ∀ hs, o.headers = some hs → ∀ p ∈ hs,
      p.1 ≠ "Not-Before" ∧ p.1 ≠ "Max-Attempts" ∧
        p.1 ≠ "Failure-Callback") :
    (∀ d, o.notBefore = some d →
      hget (c.sendHeaders (some o)) "Done-Not-Before" =
        some d.toISOString) ∧
    (o.notBefore = none →
      hget (c.sendHeaders (some o)) "Done-Not-Before" = none) ∧
    (∀ n, o.maxAttempts = some n → 0 < n →
      hget (c.sendHeaders (some o)) "Done-Max-Attempts" =
        some (toString n)) ∧
    (o.maxAttempts = none →
      hget (c.sendHeaders (some o)) "Done-Max-Attempts" = none) ∧
    (∀ s, o.failureCallback = some s → s ≠ "" →
      hget (c.sendHeaders (some o)) "Done-Failure-Callback" = some s) ∧
    (o.failureCallback = none →
      hget (c.sendHeaders (some o)) "Done-Failure-Callback" = none) ∧
    (o.failureCallback = some "" →
      hget (c.sendHeaders (some o)) "Done-Failure-Callback" = none) := by
  refine ⟨?_, ?_, ?_, ?_, ?_, ?_, ?_⟩
  · intro d hd
    rw [hget_sendHeaders_notBefore_eq c o
      (fun hs hho p hp => (hcust hs hho p hp).1)]
    exact hget_applyNotBefore_date o _ hd
  · intro hd
    rw [hget_sendHeaders_notBefore_eq c o
        (fun hs hho p hp => (hcust hs hho p hp).1),
      applyNotBefore_of_none o _ hd, hget_applyDelay_ne o _ (by decide)]
    exact hget_base_none c (by decide) (by decide)
  · intro n hn hpos
    rw [hget_sendHeaders_maxAttempts_eq c o
      (fun hs hho p hp => (hcust hs hho p hp).2.1)]
    exact hget_applyMaxAttempts_pos o _ hn (by omega)
  · intro hn
    rw [hget_sendHeaders_maxAttempts_eq c o
        (fun hs hho p hp => (hcust hs hho p hp).2.1),
      applyMaxAttempts_of_none o _ hn,
      hget_applyNotBefore_ne o _ (by decide),
      hget_applyDelay_ne o _ (by decide)]
    exact hget_base_none c (by decide) (by decide)
  · intro s hsc hne
    rw [hget_sendHeaders_failureCallback_eq c o
      (fun hs hho p hp => (hcust hs hho p hp).2.2)]
    exact hget_applyFailureCallback_str o _ hsc hne
  · intro hsc
    rw [hget_sendHeaders_failureCallback_eq c o
        (fun hs hho p hp => (hcust hs hho p hp).2.2),
      applyFailureCallback_of_none o _ hsc,
      hget_applyMaxAttempts_ne o _ (by decide),
      hget_applyNotBefore_ne o _ (by decide),
      hget_applyDelay_ne o _ (by decide)]
    exact hget_base_none c (by decide) (by decide)
  · intro hsc
    rw [hget_sendHeaders_failureCallback_eq c o
        (fun hs hho p hp => (hcust hs hho p hp).2.2),
      applyFailureCallback_of_empty o _ hsc,
      hget_applyMaxAttempts_ne o _ (by decide),
      hget_applyNotBefore_ne o _ (by decide),
      hget_applyDelay_ne o _ (by decide)]
    exact hget_base_none c (by decide) (by decide)

/-- C4: the claim as stated is false — a present but empty
`failureCallback` is falsy, so no `Done-Failure-Callback` header is sent,
where the claim demands the value be forwarded verbatim. -/
theorem C4_counterexample :
    hget (DoneClient.sendHeaders (DoneClient.create "u" "t")
      (some ⟨none, none, none, none, some ""⟩)) "Done-Failure-Callback" ≠
        some "" := by decide

/-- C4: witness instantiating the amended theorem at concrete options. -/
theorem C4_control_headers_witness :
    hget (DoneClient.sendHeaders (DoneClient.create "u" "t")
      (some ⟨none, some ⟨2024, 1, 1, 10, 0, 0, 0⟩, none, some 5,
        some "https://fail.example.com"⟩)) "Done-Not-Before" =
      some (Timestamp.toISOString ⟨2024, 1, 1, 10, 0, 0, 0⟩) ∧
    hget (DoneClient.sendHeaders (DoneClient.create "u" "t")
      (some ⟨none, some ⟨2024, 1, 1, 10, 0, 0, 0⟩, none, some 5,
        some "https://fail.example.com"⟩)) "Done-Max-Attempts" =
      some (toString 5) ∧
    hget (DoneClient.sendHeaders (DoneClient.create "u" "t")
      (some ⟨none, some ⟨2024, 1, 1, 10, 0, 0, 0⟩, none, some 5,
        some "https://fail.example.com"⟩)) "Done-Failure-Callback" =
      some "https://fail.example.com" ∧
    hget (DoneClient.sendHeaders (DoneClient.create "u" "t")
      (some ⟨none, none, none, none, none⟩)) "Done-Not-Before" = none ∧
    hget (DoneClient.sendHeaders (DoneClient.create "u" "t")
      (some ⟨none, none, none, none, some ""⟩)) "Done-Failure-Callback" =
        none := by
  refine ⟨?_, ?_, ?_, ?_, ?_⟩
  · exact (C4_control_headers _ _
      (fun hs hho => Option.noConfusion hho)).1 _ rfl
  · exact (C4_control_headers _ _
      (fun hs hho => Option.noConfusion hho)).2.2.1 5 rfl (by decide)
  · exact (C4_control_headers _ _
      (fun hs hho => Option.noConfusion hho)).2.2.2.2.1 _ rfl (by decide)
  · exact (C4_control_headers _ _
      (fun hs hho => Option.noConfusion hho)).2.1 rfl
  · exact (C4_control_headers _ _
      (fun hs hho => Option.noConfusion hho)).2.2.2.2.2.2 rfl

/-- C10: the custom-headers loop runs after all fixed and control headers
are written, so when a custom key's prefixed name collides with a control
header already set for the same call, the final request carries the
caller's value for that name — the custom value always wins. -/
theorem C10_collision_custom_wins (c : DoneClient) (o : SendMessageOptions)
    (hs : HeaderMap) (K V : String) (hho : o.headers = some hs)
    (hnd : (hs.map Prod.fst).Nodup) (hmem : (K, V) ∈ hs)
    (_hcol : K = "Delay" ∨ K = "Not-Before" ∨ K = "Max-Attempts" ∨
      K = "Failure-Callback") :
    hget (c.sendHeaders (some o)) ("Done-" ++ K) = some V := by
  unfold DoneClient.sendHeaders
  simp only [applyCustom, hho]
  exact hget_foldl_mem hs _ hnd hmem

/-- C10: witness — with `delay: "5m"` setting `Done-Delay` and a custom
entry `Delay: custom-value`, the final header value is the custom one. -/
theorem C10_collision_custom_wins_witness :
    hget (DoneClient.sendHeaders (DoneClient.create "u" "t")
      (some ⟨some (.str "5m"), none, some [("Delay", "custom-value")],
        none, none⟩)) ("Done-" ++ "Delay") = some "custom-value" :=
  C10_collision_custom_wins _ _ [("Delay", "custom-value")] "Delay"
    "custom-value" rfl (by decide) (by decide) (Or.inl rfl)

theorem toISOString_ne_empty (t : Timestamp) : t.toISOString ≠ "" := by
  intro h
  have hd := congrArg String.data h
  simp [Timestamp.toISOString, pad4] at hd

/-- C5 (amended): for any server response whose timestamp fields are
canonical ISO-8601 UTC strings in the serializer's own 24-character
millisecond format (`YYYY-MM-DDTHH:mm:ss.sssZ`), the decoded `Date`
values, re-serialized with `toISOString`, equal the original strings for
`createdAt`, `updatedAt`, `scheduledAt`, and `lastAttemptAt` when
present; absent `lastAttemptAt` and `error` fields remain absent.  (The
original claim quantified over all ISO-8601 strings; `toISOString`
always appends a millisecond part, so a valid ISO string without one
does not round-trip — see the counterexample.) -/
theorem C5_timestamp_roundtrip (r : Response DoneMessageWire)
    (m : DoneMessage) (hok : getMessageResult r = .ok m)
    (tc tu ts : Timestamp) (hc : tc.valid) (hu : tu.valid) (hs : ts.valid)
    (hcw : r.body.createdAt = tc.toISOString)
    (huw : r.body.updatedAt = tu.toISOString)
    (hsw : r.body.scheduledAt = ts.toISOString) :
    m.createdAt.map Timestamp.toISOString = some r.body.createdAt ∧
    m.updatedAt.map Timestamp.toISOString = some r.body.updatedAt ∧
    m.scheduledAt.map Timestamp.toISOString = some r.body.scheduledAt ∧
    (∀ tl : Timestamp, tl.valid → r.body.lastAttemptAt = some tl.toISOString →
      m.lastAttemptAt.map (Option.map Timestamp.toISOString) =
        some (some tl.toISOString)) ∧
    (r.body.lastAttemptAt = none → m.lastAttemptAt = none) ∧
    (r.body.error = none → m.error = none) := by
  unfold getMessageResult at hok
  split at hok
  case isFalse => exact absurd hok (by simp)
  case isTrue hr =>
    injection hok with hok
    subst hok
    refine ⟨?_, ?_, ?_, ?_, ?_, ?_⟩
    · simp [jsDate, hcw, parseISO_toISOString hc]
    · simp [jsDate, huw, parseISO_toISOString hu]
    · simp [jsDate, hsw, parseISO_toISOString hs]
    · intro tl htl hlw
      simp [optDate, hlw, toISOString_ne_empty tl, jsDate,
        parseISO_toISOString htl]
    · intro h0
      simp [optDate, h0]
    · intro h0
      exact h0

/-- C5: the claim as stated is false — `"2024-01-01T12:00:00Z"` is a valid
ISO-8601 timestamp string, but the decoded `Date` re-serializes to
`"2024-01-01T12:00:00.000Z"` (a millisecond part is always emitted), not
to the original string. -/
theorem C5_counterexample :
    (getMessageResult ⟨200, "OK", ⟨"msg_1", "cb", none, none,
      "2024-01-01T12:00:00Z", "QUEUED", 0, 3, "2024-01-01T12:00:00Z",
      "2024-01-01T12:00:00Z", none, none⟩⟩).toOption.map
      (fun m => m.createdAt.map Timestamp.toISOString) ≠
        some (some "2024-01-01T12:00:00Z") := by decide

/-- C5: witness instantiating the amended theorem on a concrete response
whose timestamps are in the canonical millisecond format. -/
theorem C5_timestamp_roundtrip_witness :
    (getMessageResult ⟨200, "OK", ⟨"msg_1", "cb", none, none,
      "2024-01-03T09:30:00.000Z", "QUEUED", 0, 3,
      "2024-01-01T12:00:00.000Z", "2024-01-02T08:15:00.500Z", none,
      none⟩⟩).toOption.map
      (fun m => m.createdAt.map Timestamp.toISOString) =
        some (some "2024-01-01T12:00:00.000Z") ∧
    (getMessageResult ⟨200, "OK", ⟨"msg_1", "cb", none, none,
      "2024-01-03T09:30:00.000Z", "QUEUED", 0, 3,
      "2024-01-01T12:00:00.000Z", "2024-01-02T08:15:00.500Z", none,
      none⟩⟩).toOption.map (fun m => m.lastAttemptAt) = some none := by
  have hok : getMessageResult ⟨200, "OK", ⟨"msg_1", "cb", none, none,
      "2024-01-03T09:30:00.000Z", "QUEUED", 0, 3,
      "2024-01-01T12:00:00.000Z", "2024-01-02T08:15:00.500Z", none,
      none⟩⟩ = Except.ok ⟨"msg_1", "cb", none, none,
        some ⟨2024, 1, 3, 9, 30, 0, 0⟩, "QUEUED", 0, 3,
        some ⟨2024, 1, 1, 12, 0, 0, 0⟩, some ⟨2024, 1, 2, 8, 15, 0, 500⟩,
        none, none⟩ := by rfl
  have h := C5_timestamp_roundtrip _ _ hok
    ⟨2024, 1, 1, 12, 0, 0, 0⟩ ⟨2024, 1, 2, 8, 15, 0, 500⟩
    ⟨2024, 1, 3, 9, 30, 0, 0⟩ (by decide) (by decide) (by decide)
    (by decide) (by decide) (by decide)
  constructor
  · rw [hok]
    exact congrArg some h.1
  · rw [hok]
    exact congrArg some (h.2.2.2.2.1 rfl)

/-- C6: for each of the three operations, a response whose status is not a
success status (outside 200–299, i.e. `response.ok` false) makes the
operation fail with exactly the message
`"{operationLabel}: {status} {statusText}"` — carrying only the numeric
status and status text — while a success status raises no such failure. -/
theorem C6_error_reporting (rs : Response SendMessageWire)
    (rg : Response DoneMessageWire)
    (rl : Response (List MessageStatusInfoWire)) :
    (rs.ok = false → sendMessageResult rs = .error
      ("Failed to send message: " ++ toString rs.status ++ " " ++
        rs.statusText)) ∧
    (rs.ok = true → isSuccess (sendMessageResult rs) = true) ∧
    (rg.ok = false → getMessageResult rg = .error
      ("Failed to get message: " ++ toString rg.status ++ " " ++
        rg.statusText)) ∧
    (rg.ok = true → isSuccess (getMessageResult rg) = true) ∧
    (rl.ok = false → getMessagesByStatusResult rl = .error
      ("Failed to get messages by status: " ++ toString rl.status ++ " " ++
        rl.statusText)) ∧
    (rl.ok = true → isSuccess (getMessagesByStatusResult rl) = true) := by
  refine ⟨?_, ?_, ?_, ?_, ?_, ?_⟩ <;> intro h <;>
    simp [sendMessageResult, getMessageResult, getMessagesByStatusResult,
      isSuccess, h]

/-- C6: witness — a 400 "Bad Request" fails with the exact message, and a
200 succeeds, for the send operation. -/
theorem C6_error_reporting_witness :
    sendMessageResult ⟨400, "Bad Request", ⟨"", ""⟩⟩ =
      .error ("Failed to send message: " ++ toString 400 ++ " " ++
        "Bad Request") ∧
    isSuccess (sendMessageResult
      ⟨200, "OK", ⟨"msg-123", "2024-01-01T12:00:00Z"⟩⟩) = true ∧
    getMessageResult ⟨404, "Not Found", ⟨"", "", none, none, "", "", 0, 0,
      "", "", none, none⟩⟩ = .error
        ("Failed to get message: " ++ toString 404 ++ " " ++ "Not Found") ∧
    getMessagesByStatusResult ⟨500, "Internal Server Error", []⟩ = .error
      ("Failed to get messages by status: " ++ toString 500 ++ " " ++
        "Internal Server Error") := by
  refine ⟨?_, ?_, ?_, ?_⟩
  · exact (C6_error_reporting ⟨400, "Bad Request", ⟨"", ""⟩⟩
      ⟨404, "Not Found", ⟨"", "", none, none, "", "", 0, 0, "", "", none,
        none⟩⟩ ⟨500, "Internal Server Error", []⟩).1 (by decide)
  · exact (C6_error_reporting
      ⟨200, "OK", ⟨"msg-123", "2024-01-01T12:00:00Z"⟩⟩
      ⟨404, "Not Found", ⟨"", "", none, none, "", "", 0, 0, "", "", none,
        none⟩⟩ ⟨500, "Internal Server Error", []⟩).2.1 (by decide)
  · exact (C6_error_reporting ⟨400, "Bad Request", ⟨"", ""⟩⟩
      ⟨404, "Not Found", ⟨"", "", none, none, "", "", 0, 0, "", "", none,
        none⟩⟩ ⟨500, "Internal Server Error", []⟩).2.2.1 (by decide)
  · exact (C6_error_reporting ⟨400, "Bad Request", ⟨"", ""⟩⟩
      ⟨404, "Not Found", ⟨"", "", none, none, "", "", 0, 0, "", "", none,
        none⟩⟩ ⟨500, "Internal Server Error", []⟩).2.2.2.2.1 (by decide)

/-- C7: on a successful `getMessage` response every field of the parsed
JSON other than the four timestamp fields appears unchanged in the
returned message; the three always-present timestamps become `Date`
values via `new Date(...)`; an absent `lastAttemptAt` remains absent. -/
theorem C7_getMessage_fields (r : Response DoneMessageWire)
    (m : DoneMessage) (hok : getMessageResult r = .ok m) :
    m.id = r.body.id ∧ m.callbackUrl = r.body.callbackUrl ∧
    m.body = r.body.body ∧ m.headers = r.body.headers ∧
    m.status = r.body.status ∧ m.attempts = r.body.attempts ∧
    m.maxAttempts = r.body.maxAttempts ∧ m.error = r.body.error ∧
    m.createdAt = jsDate r.body.createdAt ∧
    m.updatedAt = jsDate r.body.updatedAt ∧
    m.scheduledAt = jsDate r.body.scheduledAt ∧
    (r.body.lastAttemptAt = none → m.lastAttemptAt = none) ∧
    (∀ s, r.body.lastAttemptAt = some s → s ≠ "" →
      m.lastAttemptAt = some (jsDate s)) := by
  unfold getMessageResult at hok
  split at hok
  case isFalse => exact absurd hok (by simp)
  case isTrue hr =>
    injection hok with hok
    subst hok
    refine ⟨rfl, rfl, rfl, rfl, rfl, rfl, rfl, rfl, rfl, rfl, rfl, ?_, ?_⟩
    · intro h0
      simp [optDate, h0]
    · intro s hsw hne
      simp [optDate, hsw, hne]

/-- C7: witness on a concrete successful response without
`lastAttemptAt`. -/
theorem C7_getMessage_fields_witness :
    (getMessageResult ⟨200, "OK", ⟨"msg_abc", "https://cb.example.com",
      some "payload", none, "2024-01-03T09:30:00Z", "QUEUED", 1, 3,
      "2024-01-01T12:00:00Z", "2024-01-02T08:15:00Z", none,
      some "boom"⟩⟩).toOption.map (fun m => m.id) = some "msg_abc" ∧
    (getMessageResult ⟨200, "OK", ⟨"msg_abc", "https://cb.example.com",
      some "payload", none, "2024-01-03T09:30:00Z", "QUEUED", 1, 3,
      "2024-01-01T12:00:00Z", "2024-01-02T08:15:00Z", none,
      some "boom"⟩⟩).toOption.map (fun m => m.lastAttemptAt) =
        some none := by
  have hok : getMessageResult ⟨200, "OK", ⟨"msg_abc",
      "https://cb.example.com", some "payload", none,
      "2024-01-03T09:30:00Z", "QUEUED", 1, 3, "2024-01-01T12:00:00Z",
      "2024-01-02T08:15:00Z", none, some "boom"⟩⟩ =
    Except.ok ⟨"msg_abc", "https://cb.example.com", some "payload", none,
      some ⟨2024, 1, 3, 9, 30, 0, 0⟩, "QUEUED", 1, 3,
      some ⟨2024, 1, 1, 12, 0, 0, 0⟩, some ⟨2024, 1, 2, 8, 15, 0, 0⟩,
      none, some "boom"⟩ := by rfl
  have h := C7_getMessage_fields _ _ hok
  constructor
  · rw [hok]
    exact congrArg some h.1
  · rw [hok]
    exact congrArg some (h.2.2.2.2.2.2.2.2.2.2.2.1 rfl)

/-- C8: on a successful `getMessagesByStatus` response the returned list
has the same length and order as the server's array; each entry's
`scheduledAt` (and present `lastAttemptAt`) is converted from an ISO
string to a `Date` while an absent `lastAttemptAt` stays absent; an
empty response array yields an empty result without error. -/
theorem C8_list_conversion (r : Response (List MessageStatusInfoWire))
    (xs : List MessageStatusInfo)
    (hok : getMessagesByStatusResult r = .ok xs) :
    xs.length = r.body.length ∧
    (∀ i : Nat, xs[i]? = (r.body[i]?).map convertStatusInfo) ∧
    (∀ w : MessageStatusInfoWire,
      (convertStatusInfo w).id = w.id ∧
      (convertStatusInfo w).status = w.status ∧
      (convertStatusInfo w).attempts = w.attempts ∧
      (convertStatusInfo w).error = w.error ∧
      (convertStatusInfo w).scheduledAt = jsDate w.scheduledAt ∧
      (w.lastAttemptAt = none →
        (convertStatusInfo w).lastAttemptAt = none) ∧
      (∀ s, w.lastAttemptAt = some s → s ≠ "" →
        (convertStatusInfo w).lastAttemptAt = some (jsDate s))) ∧
    (r.body = [] → xs = []) := by
  unfold getMessagesByStatusResult at hok
  split at hok
  case isFalse => exact absurd hok (by simp)
  case isTrue hr =>
    injection hok with hok
    subst hok
    refine ⟨List.length_map _ _, ?_, ?_, ?_⟩
    · intro i
      simp
    · intro w
      refine ⟨rfl, rfl, rfl, rfl, rfl, ?_, ?_⟩
      · intro h0
        simp [convertStatusInfo, optDate, h0]
      · intro s hsw hne
        simp [convertStatusInfo, optDate, hsw, hne]
    · intro h0
      simp [h0]

/-- C8: witness — a two-element response converts in order, the second
entry lacking `lastAttemptAt` stays without one, and an empty response
yields an empty list. -/
theorem C8_list_conversion_witness :
    (getMessagesByStatusResult ⟨200, "OK",
      [⟨"msg_1", "QUEUED", 1, "2024-01-03T09:30:00Z",
        some "2024-01-02T08:15:00Z", none⟩,
       ⟨"msg_2", "QUEUED", 0, "2024-01-04T10:00:00Z", none,
        none⟩]⟩).toOption.map (fun xs => xs.length) = some 2 ∧
    (getMessagesByStatusResult ⟨200, "OK",
      [⟨"msg_1", "QUEUED", 1, "2024-01-03T09:30:00Z",
        some "2024-01-02T08:15:00Z", none⟩,
       ⟨"msg_2", "QUEUED", 0, "2024-01-04T10:00:00Z", none,
        none⟩]⟩).toOption.map (fun xs => xs[1]?) =
      some (some (convertStatusInfo ⟨"msg_2", "QUEUED", 0,
        "2024-01-04T10:00:00Z", none, none⟩)) ∧
    (getMessagesByStatusResult
      (⟨200, "OK", []⟩ : Response (List MessageStatusInfoWire))).toOption =
      some [] := by
  have hok : getMessagesByStatusResult ⟨200, "OK",
      [⟨"msg_1", "QUEUED", 1, "2024-01-03T09:30:00Z",
        some "2024-01-02T08:15:00Z", none⟩,
       ⟨"msg_2", "QUEUED", 0, "2024-01-04T10:00:00Z", none, none⟩]⟩ =
    Except.ok [convertStatusInfo ⟨"msg_1", "QUEUED", 1,
        "2024-01-03T09:30:00Z", some "2024-01-02T08:15:00Z", none⟩,
      convertStatusInfo ⟨"msg_2", "QUEUED", 0, "2024-01-04T10:00:00Z",
        none, none⟩] := by rfl
  have h := C8_list_conversion _ _ hok
  have hok2 : getMessagesByStatusResult
      (⟨200, "OK", []⟩ : Response (List MessageStatusInfoWire)) =
    Except.ok [] := by rfl
  have h2 := C8_list_conversion _ _ hok2
  refine ⟨?_, ?_, ?_⟩
  · rw [hok]
    exact congrArg some (h.1.trans rfl)
  · rw [hok]
    exact congrArg some (h.2.1 1)
  · rw [hok2]
    exact congrArg some (h2.2.2.2 rfl).symm

/-- C9: the static factory `DoneClient.create(baseUrl, authToken)` is
behaviorally identical to direct construction
`new DoneClient({baseUrl, authToken})`: the clients are equal, and every
operation produces the same request and the same result for the same
inputs and responses. -/
theorem C9_create_equiv (baseUrl authToken : String) :
    DoneClient.create baseUrl authToken =
      DoneClient.mk ⟨baseUrl, authToken⟩ ∧
    (∀ cb b o rs,
      DoneClient.sendMessage (DoneClient.create baseUrl authToken)
        cb b o rs =
      DoneClient.sendMessage (DoneClient.mk ⟨baseUrl, authToken⟩)
        cb b o rs) ∧
    (∀ mid rg,
      DoneClient.getMessage (DoneClient.create baseUrl authToken) mid rg =
      DoneClient.getMessage (DoneClient.mk ⟨baseUrl, authToken⟩) mid rg) ∧
    (∀ st rl,
      DoneClient.getMessagesByStatus (DoneClient.create baseUrl authToken)
        st rl =
      DoneClient.getMessagesByStatus (DoneClient.mk ⟨baseUrl, authToken⟩)
        st rl) :=
  ⟨rfl, fun _ _ _ _ => rfl, fun _ _ => rfl, fun _ _ => rfl⟩
